import Mathlib

/-!
Verification of the in-memory todo CRUD service (`src/main.py`).

The module keeps a process-wide list `all_todos` of `Todo` records and
exposes five handlers: `todos` (list), `get_todo`, `create_todo`,
`update_todo`, `delete_todo`.  We embed the data model and the handlers
as pure functions over an explicit state (the list of todos); a handler
that raises `HTTPException` is embedded as returning `Except.error`.
-/

namespace TodoApi

/-- Source: `class Priority(IntEnum): LOW = 1; MEDIUM = 2; HIGH = 3`. -/
inductive Priority where
  | low
  | medium
  | high
deriving DecidableEq, Repr

/-- The integer value backing each `Priority` member. -/
def Priority.toInt : Priority → Int
  | .low => 1
  | .medium => 2
  | .high => 3

/-- Constraint on the `name` field from `TodoBase`: `min_length=3, max_length=100`. -/
def validName (s : String) : Prop :=
  3 ≤ s.length ∧ s.length ≤ 100

instance (s : String) : Decidable (validName s) := by
  unfold validName; infer_instance

/-- Constraint on the `description` field from `TodoBase`: `min_length=5, max_length=512`. -/
def validDescription (s : String) : Prop :=
  5 ≤ s.length ∧ s.length ≤ 512

instance (s : String) : Decidable (validDescription s) := by
  unfold validDescription; infer_instance

/-- Source: `class Todo(TodoBase)`, a stored record with its unique identifier. -/
structure Todo where
  name : String
  description : String
  priority : Priority
  todo_id : Int
deriving DecidableEq, Repr

/-- Source: `class TodoCreate(TodoBase)`, the request body for creation;
`priority` defaults to `LOW`. -/
structure TodoCreate where
  name : String
  description : String
  priority : Priority := Priority.low
deriving DecidableEq, Repr

/-- A `TodoCreate` body that passed pydantic validation of `TodoBase`. -/
def validCreate (c : TodoCreate) : Prop :=
  validName c.name ∧ validDescription c.description

instance (c : TodoCreate) : Decidable (validCreate c) := by
  unfold validCreate; infer_instance

/-- Source: `class TodoUpdate(BaseModel)`, all fields optional, `None` meaning
not supplied. -/
structure TodoUpdate where
  name : Option String := none
  description : Option String := none
  priority : Option Priority := none
deriving DecidableEq, Repr

/-- A `TodoUpdate` body that passed pydantic validation: each supplied
field satisfies the same length constraints as in `TodoBase`. -/
def validUpdate (u : TodoUpdate) : Prop :=
  (∀ v, u.name = some v → validName v) ∧
  (∀ v, u.description = some v → validDescription v)

instance (u : TodoUpdate) : Decidable (validUpdate u) := by
  unfold validUpdate
  cases u.name <;> cases u.description <;> simp <;> infer_instance

/-- Source: `raise HTTPException(status_code=..., detail=...)`. -/
structure HTTPError where
  status_code : Nat
  detail : String
deriving DecidableEq, Repr

/-- The startup state: `[Todo(todo_id=i, name=f"todo{i}",
description=f"description{i}", priority=random.choice(list(Priority)))
for i in range(10)]`.  The random priority choice is modelled by a
parameter `p` giving the priority drawn for each index. -/
def initialTodos (p : Nat → Priority) : List Todo :=
  [ ⟨"todo0", "description0", p 0, 0⟩,
    ⟨"todo1", "description1", p 1, 1⟩,
    ⟨"todo2", "description2", p 2, 2⟩,
    ⟨"todo3", "description3", p 3, 3⟩,
    ⟨"todo4", "description4", p 4, 4⟩,
    ⟨"todo5", "description5", p 5, 5⟩,
    ⟨"todo6", "description6", p 6, 6⟩,
    ⟨"todo7", "description7", p 7, 7⟩,
    ⟨"todo8", "description8", p 8, 8⟩,
    ⟨"todo9", "description9", p 9, 9⟩ ]

/-- Handler `GET /todos`: `def todos(first_n : int = None)`.  Returns the whole
list when `first_n` is omitted, raises 400 when `first_n < 0`, and
returns the slice `all_todos[:first_n]` otherwise.  The handler does not
mutate the collection, so the state in the `ok` result is the input
state. -/
def todos (state : List Todo) (first_n : Option Int) :
    Except HTTPError (List Todo × List Todo) :=
  match first_n with
  | some n =>
      if n < 0 then
        Except.error ⟨400, "Index must be a positive number."⟩
      else
        Except.ok (state, state.take n.toNat)
  | none => Except.ok (state, state)

/-- The `for todo in all_todos: if todo.todo_id == todo_id: return todo`
scan of `get_todo`. -/
def findTodo (todo_id : Int) : List Todo → Option Todo
  | [] => none
  | t :: ts => if t.todo_id = todo_id then some t else findTodo todo_id ts

/-- Handler `GET /todo/` followed by an id: returns the first record whose
id matches, or raises 404. -/
def get_todo (state : List Todo) (todo_id : Int) :
    Except HTTPError (List Todo × Todo) :=
  match findTodo todo_id state with
  | some t => Except.ok (state, t)
  | none => Except.error ⟨404, "Todo not found."⟩

/-- Source: `max((t.todo_id for t in all_todos), default=-1)`, the maximum
id in the collection, `-1` when it is empty. -/
def maxId : List Todo → Int
  | [] => -1
  | [t] => t.todo_id
  | t :: ts => max t.todo_id (maxId ts)

/-- Handler `POST /todos/`: `new_id = max(..., default=-1)+1`, build the record
from the validated body, append it, return it.  Never raises. -/
def create_todo (state : List Todo) (todo : TodoCreate) : List Todo × Todo :=
  let new_id := maxId state + 1
  let new_todo : Todo := ⟨todo.name, todo.description, todo.priority, new_id⟩
  (state ++ [new_todo], new_todo)

/-- The three guarded assignments of `update_todo`: overwrite exactly the
fields supplied (non-`None`) in the patch. -/
def applyPatch (u : TodoUpdate) (t : Todo) : Todo :=
  { t with
    name := match u.name with | some v => v | none => t.name
    description := match u.description with | some v => v | none => t.description
    priority := match u.priority with | some v => v | none => t.priority }

/-- The scan of `update_todo`: patch the first record whose id matches,
in place, returning the new list and the patched record. -/
def updateFirst (todo_id : Int) (u : TodoUpdate) :
    List Todo → Option (List Todo × Todo)
  | [] => none
  | t :: ts =>
      if t.todo_id = todo_id then
        some (applyPatch u t :: ts, applyPatch u t)
      else
        match updateFirst todo_id u ts with
        | some (ts', r) => some (t :: ts', r)
        | none => none

/-- Handler `PATCH /todo/` followed by an id: partial update of the matching
record, 404 when no id matches. -/
def update_todo (state : List Todo) (todo_id : Int) (updated_todo : TodoUpdate) :
    Except HTTPError (List Todo × Todo) :=
  match updateFirst todo_id updated_todo state with
  | some (state', r) => Except.ok (state', r)
  | none => Except.error ⟨404, "Todo not found"⟩

/-- The `enumerate` / `pop(index)` scan of `delete_todo`: remove the
first record whose id matches, returning the remaining list and the
removed record. -/
def removeFirst (todo_id : Int) : List Todo → Option (List Todo × Todo)
  | [] => none
  | t :: ts =>
      if t.todo_id = todo_id then
        some (ts, t)
      else
        match removeFirst todo_id ts with
        | some (ts', d) => some (t :: ts', d)
        | none => none

/-- Handler `DELETE /todo/` followed by an id: pop the matching record and
return it, 404 when no id matches. -/
def delete_todo (state : List Todo) (todo_id : Int) :
    Except HTTPError (List Todo × Todo) :=
  match removeFirst todo_id state with
  | some (state', d) => Except.ok (state', d)
  | none => Except.error ⟨404, "Todo not found."⟩

/-- One API request: the argument of each of the five handlers. -/
inductive Op where
  | list (first_n : Option Int)
  | get (todo_id : Int)
  | create (todo : TodoCreate)
  | update (todo_id : Int) (updated_todo : TodoUpdate)
  | delete (todo_id : Int)

/-- Request bodies reach the handlers only after pydantic validation. -/
def Op.valid : Op → Prop
  | .create c => validCreate c
  | .update _ u => validUpdate u
  | _ => True

/-- The collection after serving one request: the handler's new state on
success, the untouched state when it raises. -/
def applyOp (state : List Todo) : Op → List Todo
  | .list n =>
      match todos state n with
      | .ok (s', _) => s'
      | .error _ => state
  | .get i =>
      match get_todo state i with
      | .ok (s', _) => s'
      | .error _ => state
  | .create c => (create_todo state c).1
  | .update i u =>
      match update_todo state i u with
      | .ok (s', _) => s'
      | .error _ => state
  | .delete i =>
      match delete_todo state i with
      | .ok (s', _) => s'
      | .error _ => state

/-- States of the process: the startup state and everything a sequence of
validated requests can produce from it. -/
inductive Reachable (p : Nat → Priority) : List Todo → Prop
  | init : Reachable p (initialTodos p)
  | step {s : List Todo} (op : Op) :
      Reachable p s → op.valid → Reachable p (applyOp s op)

instance (op : Op) : Decidable op.valid := by
  cases op <;> unfold Op.valid <;> infer_instance

/-- The data-model invariant of section 3 of the spec: ids are pairwise
distinct across the live collection, and every stored record satisfies
the field-length constraints. -/
def Inv (s : List Todo) : Prop :=
  (s.map Todo.todo_id).Nodup ∧
  ∀ t ∈ s, validName t.name ∧ validDescription t.description

/-- The ids handed out by the create operations of a request sequence,
run from the given state. -/
def createdIds (s : List Todo) : List Op → List Int
  | [] => []
  | op :: ops =>
      match op with
      | Op.create c => (create_todo s c).2.todo_id :: createdIds (applyOp s op) ops
      | _ => createdIds (applyOp s op) ops

/-- Every id ever assigned to a record along a run from the startup
state: the ten startup ids followed by the ids of each create. -/
def assignedIds (p : Nat → Priority) (ops : List Op) : List Int :=
  (initialTodos p).map Todo.todo_id ++ createdIds (initialTodos p) ops

/-- The no-reuse property claimed of id assignment: along every validated
request sequence, no id is ever assigned to two different records. -/
def NoIdReuse (p : Nat → Priority) : Prop :=
  ∀ ops : List Op, (∀ op ∈ ops, op.valid) → (assignedIds p ops).Nodup

/-- A concrete startup state (all random draws came up `LOW`), used to
instantiate the theorems below at concrete inputs. -/
def sampleState : List Todo :=
  initialTodos (fun _ => Priority.low)

/-- A concrete valid creation body. -/
def sampleCreate : TodoCreate :=
  ⟨"Buy milk", "Two percent milk, one gallon", Priority.medium⟩

/-- The request sequence that makes the service reuse an id: delete the
record holding the maximum id, then create. -/
def reuseOps : List Op :=
  [Op.delete 9, Op.create sampleCreate]

/-- What a successful update does, relative to the prior state `s`: the
first record carrying the requested id is patched in place — each field
supplied in the patch is overwritten, each omitted field and the id keep
their prior values — all other records are untouched, and the patched
record is returned. -/
def UpdateSpec (s : List Todo) (i : Int) (u : TodoUpdate) : Prop :=
  ∃ pre t post,
    s = pre ++ t :: post ∧ t.todo_id = i ∧ (∀ x ∈ pre, x.todo_id ≠ i) ∧
    update_todo s i u =
      Except.ok (pre ++ applyPatch u t :: post, applyPatch u t) ∧
    (applyPatch u t).todo_id = t.todo_id ∧
    (u.name = none → (applyPatch u t).name = t.name) ∧
    (∀ v, u.name = some v → (applyPatch u t).name = v) ∧
    (u.description = none → (applyPatch u t).description = t.description) ∧
    (∀ v, u.description = some v → (applyPatch u t).description = v) ∧
    (u.priority = none → (applyPatch u t).priority = t.priority) ∧
    (∀ v, u.priority = some v → (applyPatch u t).priority = v)

/-- What a successful delete does, relative to the prior state `s`: the
first record carrying the requested id is removed, the remaining records
keep their relative order, and the removed record is returned. -/
def DeleteSpec (s : List Todo) (i : Int) : Prop :=
  ∃ pre t post,
    s = pre ++ t :: post ∧ t.todo_id = i ∧ (∀ x ∈ pre, x.todo_id ≠ i) ∧
    delete_todo s i = Except.ok (pre ++ post, t)

/-- Unfolding of `maxId` on a list of at least two elements. -/
theorem maxId_cons_cons (t b : Todo) (bs : List Todo) :
    maxId (t :: b :: bs) = max t.todo_id (maxId (b :: bs)) := rfl

/-- Every id in the collection is at most `maxId`. -/
theorem le_maxId {s : List Todo} {t : Todo} (h : t ∈ s) :
    t.todo_id ≤ maxId s := by
  induction s with
  | nil => simp at h
  | cons a as ih =>
      cases as with
      | nil =>
          simp only [List.mem_singleton] at h
          subst h
          exact le_refl _
      | cons b bs =>
          rw [maxId_cons_cons]
          rcases List.mem_cons.mp h with rfl | h
          · exact le_max_left _ _
          · exact le_trans (ih h) (le_max_right _ _)

/-- On a nonempty collection, `maxId` is the id of some record. -/
theorem maxId_mem {s : List Todo} (h : s ≠ []) :
    ∃ t ∈ s, t.todo_id = maxId s := by
  induction s with
  | nil => exact absurd rfl h
  | cons a as ih =>
      cases as with
      | nil => exact ⟨a, List.mem_singleton_self a, rfl⟩
      | cons b bs =>
          rw [maxId_cons_cons]
          rcases le_total (maxId (b :: bs)) a.todo_id with hle | hle
          · exact ⟨a, List.mem_cons_self a _, (max_eq_left hle).symm⟩
          · obtain ⟨t, ht, hid⟩ := ih (List.cons_ne_nil b bs)
            exact ⟨t, List.mem_cons_of_mem a ht, by rw [hid, max_eq_right hle]⟩

/-- The scan of `get_todo` finds nothing when no id matches. -/
theorem findTodo_eq_none {i : Int} {s : List Todo}
    (h : ∀ t ∈ s, t.todo_id ≠ i) : findTodo i s = none := by
  induction s with
  | nil => rfl
  | cons a as ih =>
      simp only [findTodo, if_neg (h a (List.mem_cons_self a as))]
      exact ih fun t ht => h t (List.mem_cons_of_mem a ht)

/-- The scan of `get_todo` finds a record appended past non-matching
records. -/
theorem findTodo_append_last {s : List Todo} {r : Todo}
    (h : ∀ t ∈ s, t.todo_id ≠ r.todo_id) :
    findTodo r.todo_id (s ++ [r]) = some r := by
  induction s with
  | nil => simp [findTodo]
  | cons a as ih =>
      simp only [List.cons_append, findTodo,
        if_neg (h a (List.mem_cons_self a as))]
      exact ih fun t ht => h t (List.mem_cons_of_mem a ht)

/-- The scan of `update_todo` fails exactly like the source loop when no
id matches. -/
theorem updateFirst_eq_none {i : Int} {u : TodoUpdate} {s : List Todo}
    (h : ∀ t ∈ s, t.todo_id ≠ i) : updateFirst i u s = none := by
  induction s with
  | nil => rfl
  | cons a as ih =>
      simp only [updateFirst, if_neg (h a (List.mem_cons_self a as))]
      rw [ih fun t ht => h t (List.mem_cons_of_mem a ht)]

/-- When some record matches, the scan of `update_todo` patches the
first match in place and leaves everything else untouched. -/
theorem updateFirst_eq_some {i : Int} {u : TodoUpdate} :
    ∀ {s : List Todo}, (∃ t ∈ s, t.todo_id = i) →
    ∃ pre t post,
      s = pre ++ t :: post ∧ (∀ x ∈ pre, x.todo_id ≠ i) ∧ t.todo_id = i ∧
      updateFirst i u s = some (pre ++ applyPatch u t :: post, applyPatch u t) := by
  intro s
  induction s with
  | nil => rintro ⟨t, ht, -⟩; simp at ht
  | cons a as ih =>
      intro h
      by_cases ha : a.todo_id = i
      · exact ⟨[], a, as, rfl, by simp, ha, by simp [updateFirst, if_pos ha]⟩
      · obtain ⟨t, ht, hid⟩ := h
        rcases List.mem_cons.mp ht with rfl | ht
        · exact absurd hid ha
        · obtain ⟨pre, t', post, hs, hpre, hid', heq⟩ := ih ⟨t, ht, hid⟩
          refine ⟨a :: pre, t', post, by rw [hs, List.cons_append], ?_, hid', ?_⟩
          · intro x hx
            rcases List.mem_cons.mp hx with rfl | hx
            · exact ha
            · exact hpre x hx
          · simp only [updateFirst, if_neg ha, heq, List.cons_append]

/-- The scan of `delete_todo` fails exactly like the source loop when no
id matches. -/
theorem removeFirst_eq_none {i : Int} {s : List Todo}
    (h : ∀ t ∈ s, t.todo_id ≠ i) : removeFirst i s = none := by
  induction s with
  | nil => rfl
  | cons a as ih =>
      simp only [removeFirst, if_neg (h a (List.mem_cons_self a as))]
      rw [ih fun t ht => h t (List.mem_cons_of_mem a ht)]

/-- When some record matches, the scan of `delete_todo` pops the first
match and keeps all other records in order. -/
theorem removeFirst_eq_some {i : Int} :
    ∀ {s : List Todo}, (∃ t ∈ s, t.todo_id = i) →
    ∃ pre t post,
      s = pre ++ t :: post ∧ (∀ x ∈ pre, x.todo_id ≠ i) ∧ t.todo_id = i ∧
      removeFirst i s = some (pre ++ post, t) := by
  intro s
  induction s with
  | nil => rintro ⟨t, ht, -⟩; simp at ht
  | cons a as ih =>
      intro h
      by_cases ha : a.todo_id = i
      · exact ⟨[], a, as, rfl, by simp, ha, by simp [removeFirst, if_pos ha]⟩
      · obtain ⟨t, ht, hid⟩ := h
        rcases List.mem_cons.mp ht with rfl | ht
        · exact absurd hid ha
        · obtain ⟨pre, t', post, hs, hpre, hid', heq⟩ := ih ⟨t, ht, hid⟩
          refine ⟨a :: pre, t', post, by rw [hs, List.cons_append], ?_, hid', ?_⟩
          · intro x hx
            rcases List.mem_cons.mp hx with rfl | hx
            · exact ha
            · exact hpre x hx
          · simp only [removeFirst, if_neg ha, heq, List.cons_append]

/-- Patching never touches the id. -/
theorem applyPatch_todo_id (u : TodoUpdate) (t : Todo) :
    (applyPatch u t).todo_id = t.todo_id := rfl

/-- Patching with a validated body keeps the stored record valid. -/
theorem applyPatch_valid {u : TodoUpdate} {t : Todo} (hu : validUpdate u)
    (h1 : validName t.name) (h2 : validDescription t.description) :
    validName (applyPatch u t).name ∧
    validDescription (applyPatch u t).description := by
  constructor
  · show validName (match u.name with | some v => v | none => t.name)
    cases hn : u.name with
    | none => exact h1
    | some v => exact hu.1 v hn
  · show validDescription
      (match u.description with | some v => v | none => t.description)
    cases hd : u.description with
    | none => exact h2
    | some v => exact hu.2 v hd

/-- Serving a list request never changes the collection. -/
theorem applyOp_list (s : List Todo) (n : Option Int) :
    applyOp s (Op.list n) = s := by
  cases n with
  | none => rfl
  | some k =>
      by_cases hk : k < 0
      · simp [applyOp, todos, if_pos hk]
      · simp [applyOp, todos, if_neg hk]

/-- Serving a get request never changes the collection. -/
theorem applyOp_get (s : List Todo) (i : Int) :
    applyOp s (Op.get i) = s := by
  simp only [applyOp, get_todo]
  cases findTodo i s <;> rfl

/-- Creation appends a record whose id is `maxId + 1`. -/
theorem applyOp_create (s : List Todo) (c : TodoCreate) :
    applyOp s (Op.create c) =
      s ++ [⟨c.name, c.description, c.priority, maxId s + 1⟩] := rfl

/-- The invariant holds at the startup state, whatever the random
priorities were. -/
theorem inv_initialTodos (p : Nat → Priority) : Inv (initialTodos p) := by
  constructor
  · show ([0, 1, 2, 3, 4, 5, 6, 7, 8, 9] : List Int).Nodup
    decide
  · intro t ht
    simp only [initialTodos, List.mem_cons, List.not_mem_nil, or_false] at ht
    rcases ht with rfl | rfl | rfl | rfl | rfl | rfl | rfl | rfl | rfl | rfl <;>
      exact ⟨by dsimp only; decide, by dsimp only; decide⟩

/-- Serving one validated request preserves the invariant. -/
theorem inv_applyOp {s : List Todo} {op : Op} (hs : Inv s) (hv : op.valid) :
    Inv (applyOp s op) := by
  cases op with
  | list n => rw [applyOp_list]; exact hs
  | get i => rw [applyOp_get]; exact hs
  | create c =>
      rw [applyOp_create]
      constructor
      · rw [List.map_append, List.nodup_append]
        refine ⟨hs.1, List.nodup_singleton _, ?_⟩
        intro a ha hb
        simp only [List.map_cons, List.map_nil, List.mem_singleton] at hb
        obtain ⟨t, ht, rfl⟩ := List.mem_map.mp ha
        have := le_maxId ht
        omega
      · intro t ht
        rcases List.mem_append.mp ht with ht | ht
        · exact hs.2 t ht
        · simp only [List.mem_singleton] at ht
          subst ht
          exact ⟨hv.1, hv.2⟩
  | update i u =>
      by_cases h : ∃ t ∈ s, t.todo_id = i
      · obtain ⟨pre, t, post, hdec, -, -, heq⟩ := updateFirst_eq_some (u := u) h
        have hstate : applyOp s (Op.update i u) = pre ++ applyPatch u t :: post := by
          simp [applyOp, update_todo, heq]
        rw [hstate]
        constructor
        · have : (pre ++ applyPatch u t :: post).map Todo.todo_id =
              (pre ++ t :: post).map Todo.todo_id := by
            simp [applyPatch_todo_id]
          rw [this, ← hdec]
          exact hs.1
        · intro x hx
          rcases List.mem_append.mp hx with hx | hx
          · exact hs.2 x (hdec ▸ List.mem_append_left _ hx)
          · rcases List.mem_cons.mp hx with rfl | hx
            · have ht : t ∈ s := hdec ▸ List.mem_append_right _ (List.mem_cons_self t post)
              exact applyPatch_valid hv (hs.2 t ht).1 (hs.2 t ht).2
            · exact hs.2 x (hdec ▸ List.mem_append_right _ (List.mem_cons_of_mem t hx))
      · push_neg at h
        have : applyOp s (Op.update i u) = s := by
          simp [applyOp, update_todo, updateFirst_eq_none h]
        rw [this]; exact hs
  | delete i =>
      by_cases h : ∃ t ∈ s, t.todo_id = i
      · obtain ⟨pre, t, post, hdec, -, -, heq⟩ := removeFirst_eq_some h
        have hstate : applyOp s (Op.delete i) = pre ++ post := by
          simp [applyOp, delete_todo, heq]
        rw [hstate]
        have hsub : (pre ++ post).Sublist (pre ++ t :: post) :=
          List.Sublist.append_left (List.sublist_cons_self t post) pre
        constructor
        · exact hs.1.sublist (hdec ▸ (hsub.map Todo.todo_id))
        · intro x hx
          exact hs.2 x (hdec ▸ hsub.mem hx)
      · push_neg at h
        have : applyOp s (Op.delete i) = s := by
          simp [applyOp, delete_todo, removeFirst_eq_none h]
        rw [this]; exact hs

/-- Every reachable state satisfies the invariant. -/
theorem inv_reachable {p : Nat → Priority} {s : List Todo}
    (h : Reachable p s) : Inv s := by
  induction h with
  | init => exact inv_initialTodos p
  | step op _ hv ih => exact inv_applyOp ih hv

/-- C1: for every collection state, `create_todo` assigns the new
record's id as one more than the maximum id present (0 when the
collection is empty), appends the new record at the end, and returns the
created record, carrying that id and the input's fields. -/
theorem C1_create_assigns_next_id (s : List Todo) (c : TodoCreate) :
    (create_todo s c).1 = s ++ [(create_todo s c).2] ∧
    (create_todo s c).2.name = c.name ∧
    (create_todo s c).2.description = c.description ∧
    (create_todo s c).2.priority = c.priority ∧
    (s = [] → (create_todo s c).2.todo_id = 0) ∧
    (s ≠ [] → ∃ t ∈ s, (create_todo s c).2.todo_id = t.todo_id + 1 ∧
      ∀ x ∈ s, x.todo_id ≤ t.todo_id) := by
  refine ⟨rfl, rfl, rfl, rfl, ?_, ?_⟩
  · rintro rfl; rfl
  · intro hne
    obtain ⟨t, ht, hid⟩ := maxId_mem hne
    refine ⟨t, ht, ?_, fun x hx => hid ▸ le_maxId hx⟩
    show maxId s + 1 = t.todo_id + 1
    rw [hid]

/-- Witness for C1 at the startup state: the eleventh record gets id
10 = 9 + 1. -/
theorem C1_create_assigns_next_id_witness :
    sampleState ≠ [] ∧
    ∃ t ∈ sampleState,
      (create_todo sampleState sampleCreate).2.todo_id = t.todo_id + 1 ∧
      ∀ x ∈ sampleState, x.todo_id ≤ t.todo_id :=
  ⟨by decide,
    (C1_create_assigns_next_id sampleState sampleCreate).2.2.2.2.2 (by decide)⟩

/-- C3: listing with `first_n` omitted returns the whole collection in
order; with `first_n = k ≥ 0` it returns the first `min(k, size)`
records; with `k < 0` it fails with the 400 client error. -/
theorem C3_list_semantics (s : List Todo) (k : Int) :
    todos s none = Except.ok (s, s) ∧
    (0 ≤ k →
      todos s (some k) = Except.ok (s, s.take k.toNat) ∧
      (s.take k.toNat).length = min k.toNat s.length) ∧
    (k < 0 →
      todos s (some k) =
        Except.error ⟨400, "Index must be a positive number."⟩) := by
  refine ⟨rfl, fun hk => ⟨?_, List.length_take _ _⟩, fun hk => ?_⟩
  · simp [todos, not_lt.mpr hk]
  · simp [todos, hk]

/-- Witness for C3: the spec's scenario 1, `list(first_n=3)` on the
startup state returns the records with ids 0, 1, 2. -/
theorem C3_list_semantics_witness :
    (0 : Int) ≤ 3 ∧
    todos sampleState (some 3) =
      Except.ok (sampleState, sampleState.take (Int.toNat 3)) :=
  ⟨by decide, ((C3_list_semantics sampleState 3).2.1 (by decide)).1⟩

/-- C5: when some record carries the requested id, `delete_todo` removes
exactly the first such record, keeps the relative order of all others,
and returns the removed record; when none does, it fails with the 404
error. -/
theorem C5_delete_removes_exactly_one (s : List Todo) (i : Int) :
    ((∃ t ∈ s, t.todo_id = i) → DeleteSpec s i) ∧
    ((∀ t ∈ s, t.todo_id ≠ i) →
      delete_todo s i = Except.error ⟨404, "Todo not found."⟩) := by
  constructor
  · intro h
    obtain ⟨pre, t, post, hdec, hpre, hid, heq⟩ := removeFirst_eq_some h
    exact ⟨pre, t, post, hdec, hid, hpre, by simp [delete_todo, heq]⟩
  · intro h
    simp [delete_todo, removeFirst_eq_none h]

/-- Witness for C5: deleting id 3 from the startup state succeeds and
splits the collection around the removed record. -/
theorem C5_delete_removes_exactly_one_witness :
    (∃ t ∈ sampleState, t.todo_id = 3) ∧ DeleteSpec sampleState 3 :=
  ⟨by decide, (C5_delete_removes_exactly_one sampleState 3).1 (by decide)⟩

/-- C7: creating and then getting the returned id succeeds and yields
exactly the created record, in the post-create state. -/
theorem C7_create_then_get_roundtrip (s : List Todo) (c : TodoCreate) :
    get_todo (create_todo s c).1 (create_todo s c).2.todo_id =
      Except.ok ((create_todo s c).1, (create_todo s c).2) := by
  have hfresh : ∀ t ∈ s, t.todo_id ≠ (create_todo s c).2.todo_id := by
    intro t ht
    have := le_maxId ht
    show t.todo_id ≠ maxId s + 1
    omega
  show get_todo (s ++ [(create_todo s c).2]) _ = _
  rw [get_todo, findTodo_append_last hfresh]
  rfl

/-- C10: serving a list or a get request, with any argument (including
a negative limit and an absent id), leaves the collection exactly as it
was. -/
theorem C10_list_get_readonly (s : List Todo) (n : Option Int) (i : Int) :
    applyOp s (Op.list n) = s ∧ applyOp s (Op.get i) = s :=
  ⟨applyOp_list s n, applyOp_get s i⟩

/-- C4: when some record carries the requested id, `update_todo`
overwrites on that record exactly the fields supplied in the patch,
keeps every omitted field and the id unchanged, leaves all other records
untouched, and returns the updated record. -/
theorem C4_update_patches_exactly (s : List Todo) (i : Int) (u : TodoUpdate)
    (h : ∃ t ∈ s, t.todo_id = i) : UpdateSpec s i u := by
  obtain ⟨pre, t, post, hdec, hpre, hid, heq⟩ := updateFirst_eq_some (u := u) h
  refine ⟨pre, t, post, hdec, hid, hpre, by simp [update_todo, heq], rfl,
    ?_, ?_, ?_, ?_, ?_, ?_⟩
  · intro hn
    show (match u.name with | some v => v | none => t.name) = t.name
    rw [hn]
  · intro v hn
    show (match u.name with | some v => v | none => t.name) = v
    rw [hn]
  · intro hd
    show (match u.description with | some v => v | none => t.description) =
      t.description
    rw [hd]
  · intro v hd
    show (match u.description with | some v => v | none => t.description) = v
    rw [hd]
  · intro hp
    show (match u.priority with | some v => v | none => t.priority) = t.priority
    rw [hp]
  · intro v hp
    show (match u.priority with | some v => v | none => t.priority) = v
    rw [hp]

/-- Witness for C4: the spec's scenario 4, patching only the priority of
record 5 on the startup state. -/
theorem C4_update_patches_exactly_witness :
    (∃ t ∈ sampleState, t.todo_id = 5) ∧
    UpdateSpec sampleState 5 ⟨none, none, some Priority.high⟩ :=
  ⟨by decide,
    C4_update_patches_exactly sampleState 5 ⟨none, none, some Priority.high⟩
      (by decide)⟩

/-- C6: on a state with pairwise-distinct ids containing id `i`,
deleting `i` succeeds, shrinks the collection by exactly one record, and
a subsequent get of `i` fails with the 404 error. -/
theorem C6_delete_then_get_fails (s : List Todo) (i : Int)
    (hnd : (s.map Todo.todo_id).Nodup) (h : ∃ t ∈ s, t.todo_id = i) :
    ∃ s' d, delete_todo s i = Except.ok (s', d) ∧
      s'.length + 1 = s.length ∧
      get_todo s' i = Except.error ⟨404, "Todo not found."⟩ := by
  obtain ⟨pre, t, post, hdec, hpre, hid, heq⟩ := removeFirst_eq_some h
  subst hdec
  refine ⟨pre ++ post, t, by simp [delete_todo, heq], by simp; omega, ?_⟩
  have hpost : ∀ x ∈ post, x.todo_id ≠ i := by
    rw [List.map_append, List.map_cons, List.nodup_append] at hnd
    have hhead := List.nodup_cons.mp hnd.2.1
    intro x hx hxi
    exact hhead.1 (List.mem_map.mpr ⟨x, hx, by rw [hxi, hid]⟩)
  have hall : ∀ x ∈ pre ++ post, x.todo_id ≠ i := by
    intro x hx
    rcases List.mem_append.mp hx with hx | hx
    · exact hpre x hx
    · exact hpost x hx
  rw [get_todo, findTodo_eq_none hall]

/-- Witness for C6: the spec's scenario 5, deleting id 3 then getting
id 3 on the startup state. -/
theorem C6_delete_then_get_fails_witness :
    (sampleState.map Todo.todo_id).Nodup ∧
    (∃ t ∈ sampleState, t.todo_id = 3) ∧
    ∃ s' d, delete_todo sampleState 3 = Except.ok (s', d) ∧
      s'.length + 1 = sampleState.length ∧
      get_todo s' 3 = Except.error ⟨404, "Todo not found."⟩ :=
  ⟨by decide, by decide,
    C6_delete_then_get_fails sampleState 3 (by decide) (by decide)⟩

/-- C8: every failing operation leaves the collection unchanged — a list
with a negative limit returns the 400 error, and a get, update, or
delete with an id absent from the collection returns the 404 error, all
without mutating the state. -/
theorem C8_errors_leave_state_unchanged (s : List Todo) (k i : Int)
    (u : TodoUpdate) (hk : k < 0) (hi : ∀ t ∈ s, t.todo_id ≠ i) :
    todos s (some k) =
      Except.error ⟨400, "Index must be a positive number."⟩ ∧
    applyOp s (Op.list (some k)) = s ∧
    get_todo s i = Except.error ⟨404, "Todo not found."⟩ ∧
    applyOp s (Op.get i) = s ∧
    update_todo s i u = Except.error ⟨404, "Todo not found"⟩ ∧
    applyOp s (Op.update i u) = s ∧
    delete_todo s i = Except.error ⟨404, "Todo not found."⟩ ∧
    applyOp s (Op.delete i) = s := by
  refine ⟨by simp [todos, hk], applyOp_list s (some k),
    by rw [get_todo, findTodo_eq_none hi], applyOp_get s i,
    by rw [update_todo, updateFirst_eq_none hi], ?_,
    by rw [delete_todo, removeFirst_eq_none hi], ?_⟩
  · show (match update_todo s i u with
      | Except.ok (s', _) => s' | Except.error _ => s) = s
    rw [update_todo, updateFirst_eq_none hi]
  · show (match delete_todo s i with
      | Except.ok (s', _) => s' | Except.error _ => s) = s
    rw [delete_todo, removeFirst_eq_none hi]

/-- Witness for C8: a negative limit and the absent id 99 (the spec's
scenarios 3 and 6) on the startup state. -/
theorem C8_errors_leave_state_unchanged_witness :
    (-1 : Int) < 0 ∧ (∀ t ∈ sampleState, t.todo_id ≠ 99) ∧
    (todos sampleState (some (-1)) =
      Except.error ⟨400, "Index must be a positive number."⟩ ∧
    applyOp sampleState (Op.list (some (-1))) = sampleState ∧
    get_todo sampleState 99 = Except.error ⟨404, "Todo not found."⟩ ∧
    applyOp sampleState (Op.get 99) = sampleState ∧
    update_todo sampleState 99 ⟨none, none, none⟩ =
      Except.error ⟨404, "Todo not found"⟩ ∧
    applyOp sampleState (Op.update 99 ⟨none, none, none⟩) = sampleState ∧
    delete_todo sampleState 99 = Except.error ⟨404, "Todo not found."⟩ ∧
    applyOp sampleState (Op.delete 99) = sampleState) :=
  ⟨by decide, by decide,
    C8_errors_leave_state_unchanged sampleState (-1) 99 ⟨none, none, none⟩
      (by decide) (by decide)⟩

/-- C9: in every state reachable from the startup state by validated
requests, the stored ids are pairwise distinct and every stored record
satisfies the field-length constraints. -/
theorem C9_reachable_invariant (p : Nat → Priority) (s : List Todo)
    (h : Reachable p s) :
    (s.map Todo.todo_id).Nodup ∧
    ∀ t ∈ s, validName t.name ∧ validDescription t.description :=
  inv_reachable h

/-- Witness for C9: the startup state itself is reachable and satisfies
the invariant. -/
theorem C9_reachable_invariant_witness :
    Reachable (fun _ => Priority.low) sampleState ∧
    ((sampleState.map Todo.todo_id).Nodup ∧
      ∀ t ∈ sampleState, validName t.name ∧ validDescription t.description) :=
  ⟨Reachable.init,
    C9_reachable_invariant (fun _ => Priority.low) sampleState Reachable.init⟩

/-- C2 fails on the code: deleting the record holding the maximum id and
then creating re-assigns the deleted record's id.  Concretely, from the
startup state the run `delete 9; create` assigns id 9 a second time, so
the assigned-id trace `0,…,9,9` is not duplicate-free. -/
theorem C2_id_reuse_counterexample : ¬ NoIdReuse (fun _ => Priority.low) :=
  fun h => absurd (h reuseOps (by decide)) (by decide)

/-- C2 amended: a newly created record's id is strictly greater than
every id present at creation time, so an id still in use is never
re-assigned; only the id of a deleted record can ever be assigned
again. -/
theorem C2_amended_created_id_fresh (s : List Todo) (c : TodoCreate)
    (t : Todo) (h : t ∈ s) : t.todo_id < (create_todo s c).2.todo_id := by
  have := le_maxId h
  show t.todo_id < maxId s + 1
  omega

/-- Witness for the amended C2 on a one-record state. -/
theorem C2_amended_created_id_fresh_witness :
    (⟨"abc", "abcde", Priority.low, 7⟩ : Todo) ∈
      [(⟨"abc", "abcde", Priority.low, 7⟩ : Todo)] ∧
    (7 : Int) <
      (create_todo [⟨"abc", "abcde", Priority.low, 7⟩] sampleCreate).2.todo_id :=
  ⟨List.mem_singleton_self _,
    C2_amended_created_id_fresh [⟨"abc", "abcde", Priority.low, 7⟩]
      sampleCreate _ (List.mem_singleton_self _)⟩

end TodoApi
